import Mathlib

/-!
Verification development for the eth-block-tracker repository.

The definitions below are shallow embeddings of the JavaScript / TypeScript
source of the repository:

* hex parsing (`hexToInt`) models `Number.parseInt(s, 16)` as used by
  `BaseBlockTracker.hexToInt` and `BaseChainResetTracker.hexToInt`;
* `newPotentialLatest` and `setCurrentBlock` embed
  `BaseBlockTracker._newPotentialLatest` / `_setCurrentBlock`;
* `useNewBlock` embeds `BaseChainResetTracker._useNewBlock`;
* `TrackerState` with `addListener` / `removeListener` / `timerFire` /
  `destroy` embeds the demand-driven start/stop machinery of
  `BaseBlockTracker` (`_maybeStart`, `_maybeEnd`, `_setupBlockResetTimeout`,
  `_onNewListener`, `_onRemoveListener`, `destroy`);
* `syncIter` / `synchronize` embed one iteration and the loop of
  `PollingBlockTracker._synchronize`;
* `subStart` / `subEnd` embed `SubscribeBlockTracker._start` / `_end`.

JavaScript peculiarities that matter for the claims are modelled explicitly:
string truthiness (the empty string is falsy), and `NaN` results of
`parseInt` (modelled as `none`, with every comparison against `none` false).
-/

namespace EthBlockTracker

/-- Value of one hexadecimal digit character, `none` for a non-digit.
Mirrors the digit classification performed by JavaScript `parseInt` with
radix 16. -/
def hexDigitVal (c : Char) : Option Nat :=
  if 48 ≤ c.toNat ∧ c.toNat ≤ 57 then some (c.toNat - 48)
  else if 97 ≤ c.toNat ∧ c.toNat ≤ 102 then some (c.toNat - 87)
  else if 65 ≤ c.toNat ∧ c.toNat ≤ 70 then some (c.toNat - 55)
  else none

/-- Accumulate the longest leading run of hexadecimal digits, as JavaScript
`parseInt` does (it stops at the first invalid character and keeps what was
parsed so far). -/
def hexAccum : List Char → Nat → Nat
  | [], acc => acc
  | c :: cs, acc =>
    match hexDigitVal c with
    | some d => hexAccum cs (acc * 16 + d)
    | none => acc

/-- Remove a leading hexadecimal marker, as JavaScript `parseInt` does when
the radix is 16. -/
def dropHexMark : List Char → List Char
  | '0' :: 'x' :: rest => rest
  | '0' :: 'X' :: rest => rest
  | cs => cs

/-- Split off an optional sign character, as JavaScript `parseInt` does. -/
def signSplit : List Char → Bool × List Char
  | '-' :: rest => (true, rest)
  | '+' :: rest => (false, rest)
  | cs => (false, cs)

/-- Model of the source function `hexToInt` (both trackers define it as
`Number.parseInt(hexInt, 16)`): skip leading whitespace, optional sign,
optional hexadecimal marker, then the longest run of hex digits; `none`
models the `NaN` produced when no digit is found. -/
def hexToInt (s : String) : Option Int :=
  let cs := s.data.dropWhile Char.isWhitespace
  let p := signSplit cs
  let cs2 := dropHexMark p.2
  match cs2 with
  | [] => none
  | c :: _ =>
    if (hexDigitVal c).isSome then
      let n : Nat := hexAccum cs2 0
      some (if p.1 then -(n : Int) else (n : Int))
    else none

/-- JavaScript `<=` on possibly-NaN numbers: any comparison with NaN is
false. -/
def jsLe : Option Int → Option Int → Bool
  | some x, some y => decide (x ≤ y)
  | _, _ => false

/-- JavaScript `<` on possibly-NaN numbers. -/
def jsLt : Option Int → Option Int → Bool
  | some x, some y => decide (x < y)
  | _, _ => false

/-- JavaScript `===` on possibly-NaN numbers (`NaN === NaN` is false). -/
def jsEqInt : Option Int → Option Int → Bool
  | some x, some y => x == y
  | _, _ => false

/-- JavaScript truthiness of a nullable string: `null` and the empty string
are falsy. -/
def jsTruthy : Option String → Bool
  | none => false
  | some s => !(s == "")

/-- Events emitted by the trackers. `sync` carries the
`\x7b oldBlock, newBlock \x7d` payload of `BaseBlockTracker._setCurrentBlock`;
`reset` carries the old and new `(number, hash)` pairs of
`BaseChainResetTracker._emitReset`. -/
inductive Ev where
  | latest (v : String)
  | sync (oldBlock : Option String) (newBlock : String)
  | started
  | ended
  | error
  | reset (oldNumber oldHash newNumber newHash : Option String)
  deriving DecidableEq

/-- `BaseBlockTracker._setCurrentBlock` restricted to its footprint (the
`_currentBlock` field): store the new block and emit `latest` with the new
value and `sync` with the old and new values. -/
def setCurrentBlock (cur : Option String) (newBlock : String) :
    Option String × List Ev :=
  (some newBlock, [Ev.latest newBlock, Ev.sync cur newBlock])

/-- `BaseBlockTracker._newPotentialLatest`: reject the candidate when a
truthy current block exists and the candidate parses to a value `<=` the
current one (JavaScript semantics, so a `NaN` on either side accepts);
otherwise store and emit via `_setCurrentBlock`. -/
def newPotentialLatest (cur : Option String) (newBlock : String) :
    Option String × List Ev :=
  match cur with
  | some c =>
    if (!(c == "")) && jsLe (hexToInt newBlock) (hexToInt c) then (some c, [])
    else setCurrentBlock (some c) newBlock
  | none => setCurrentBlock none newBlock

/-- Feed a sequence of candidate block numbers through
`_newPotentialLatest`, collecting all emitted events. -/
def processAll (cur : Option String) : List String → Option String × List Ev
  | [] => (cur, [])
  | v :: vs =>
    let r1 := newPotentialLatest cur v
    let r2 := processAll r1.1 vs
    (r2.1, r1.2 ++ r2.2)

/-- Payloads of the `latest` events in an event list, in order. -/
def latestPayloads : List Ev → List String
  | [] => []
  | Ev.latest v :: es => v :: latestPayloads es
  | _ :: es => latestPayloads es

/-- Numeric value of a block-number string (meaningful under a hypothesis
that the string parses). -/
def valOf (v : String) : Int := (hexToInt v).getD 0

/-- Running numeric maximum of a list of block-number strings, starting
from `m`. -/
def runMax : Int → List String → Int
  | m, [] => m
  | m, v :: vs => runMax (max m (valOf v)) vs

/-- Numeric maximum of a nonempty list of block-number strings. -/
def numericMax : List String → Option Int
  | [] => none
  | v :: vs => some (runMax (valOf v) vs)

/-- The subsequence of candidates at which the running numeric maximum
strictly increases (the first candidate counts when nothing is cached
yet). -/
def strictIncs : Option Int → List String → List String
  | _, [] => []
  | none, v :: vs => v :: strictIncs (some (valOf v)) vs
  | some b, v :: vs =>
    if valOf v ≤ b then strictIncs (some b) vs
    else v :: strictIncs (some (valOf v)) vs

/-- All strings in the list parse as hexadecimal numbers. -/
def allParse (vs : List String) : Prop := ∀ v ∈ vs, (hexToInt v).isSome

/-- Modelled from the spec: the `usePastBlocks` variant of
`_newPotentialLatest` is not present under `src/` (only the test suite
references the flag). Spec section 4.1: the filter "rejects `v` if a current
value exists and `v` is numerically ≤ current value (unless past-blocks mode
is enabled, which always accepts and re-emits)"; default-mode behaviour is
the source function `newPotentialLatest`. -/
def newPotentialLatestPB (usePastBlocks : Bool) (cur : Option String)
    (newBlock : String) : Option String × List Ev :=
  if usePastBlocks then setCurrentBlock cur newBlock
  else newPotentialLatest cur newBlock

/-! ## Chain-reorganization tracker (`BaseChainResetTracker`) -/

/-- A `(number, hash)` pair as tracked by `BaseChainResetTracker`; both
fields are nullable strings as in the source `Block` interface. -/
structure Block where
  number : Option String
  hash : Option String
  deriving DecidableEq

/-- The empty cached block, as set by
`BaseChainResetTracker._resetCurrentBlock`. -/
def emptyBlock : Block := ⟨none, none⟩

/-- `BaseChainResetTracker._useNewBlock`, restricted to its footprint (the
`_currentBlock` field and the emitted events). The source tests
`!newBlock.number`, `!currentBlock.number || !currentBlock.hash` and
`!newBlock.hash` with JavaScript truthiness, then compares parsed numbers
with `<` and `===` and hashes with `!==`, emitting `reset` (via
`_emitReset`) before finally adopting the candidate with
`_setCurrentBlock`. -/
def useNewBlock (currentBlock newBlock : Block) : Block × List Ev :=
  if !(jsTruthy newBlock.number) then (currentBlock, [])
  else if !(jsTruthy currentBlock.number) || !(jsTruthy currentBlock.hash) then
    (newBlock, [])
  else if !(jsTruthy newBlock.hash) then
    (emptyBlock,
      [Ev.reset currentBlock.number currentBlock.hash
        newBlock.number newBlock.hash])
  else
    let newInt := hexToInt (newBlock.number.getD "")
    let curInt := hexToInt (currentBlock.number.getD "")
    let evs1 :=
      if jsLt newInt curInt then
        [Ev.reset currentBlock.number currentBlock.hash
          newBlock.number newBlock.hash]
      else []
    let evs2 :=
      if jsEqInt newInt curInt && !(newBlock.hash == currentBlock.hash) then
        [Ev.reset currentBlock.number currentBlock.hash
          newBlock.number newBlock.hash]
      else []
    (newBlock, evs1 ++ evs2)

/-! ## `BaseBlockTracker` lifecycle state machine -/

/-- The armed block-reset timeout: its duration and whether it was
detached from the event loop (`unref`), as set up by
`_setupBlockResetTimeout`. -/
structure TimerInfo where
  duration : Nat
  unrefd : Bool
  deriving DecidableEq

/-- Listener-event kinds relevant to the tracker. `blockTrackerEvents` in
the source is `['sync', 'latest']`. -/
inductive EvKind where
  | latest
  | sync
  | error
  | other
  deriving DecidableEq

/-- Membership in the source's `blockTrackerEvents` list. -/
def isBlockTrackerEvent : EvKind → Bool
  | .latest => true
  | .sync => true
  | _ => false

/-- State of a `BaseBlockTracker`: the `_isRunning` flag, the
`_currentBlock` cache, the armed `_blockResetTimeout` (if any), the
configured `_blockResetDuration`, the listener counts for the two
block-tracker events, and whether the internal `newListener` /
`removeListener` hooks installed by `_setupInternalEvents` are still
attached (they are removed by `destroy` via `super.removeAllListeners`). -/
structure TrackerState where
  isRunning : Bool
  currentBlock : Option String
  blockResetTimeout : Option TimerInfo
  blockResetDuration : Nat
  latestCount : Nat
  syncCount : Nat
  internalHooks : Bool
  deriving DecidableEq

/-- `_cancelBlockResetTimeout`: clear any armed timeout. -/
def cancelBlockResetTimeout (s : TrackerState) : TrackerState :=
  { s with blockResetTimeout := none }

/-- `_setupBlockResetTimeout`: cancel any existing timeout, then arm a
fresh one with the configured duration; the source calls `unref` on it so
it does not keep the process alive. -/
def setupBlockResetTimeout (s : TrackerState) : TrackerState :=
  { cancelBlockResetTimeout s with
      blockResetTimeout := some ⟨s.blockResetDuration, true⟩ }

/-- `_maybeStart`: no-op while running; otherwise set `_isRunning`, cancel
the block-reset timeout, run the start hook and emit `_started`. -/
def maybeStart (s : TrackerState) : TrackerState × List Ev :=
  if s.isRunning then (s, [])
  else
    (cancelBlockResetTimeout { s with isRunning := true }, [Ev.started])

/-- `_maybeEnd`: no-op while idle; otherwise clear `_isRunning`, arm the
block-reset timeout, run the end hook and emit `_ended`. -/
def maybeEnd (s : TrackerState) : TrackerState × List Ev :=
  if !s.isRunning then (s, [])
  else (setupBlockResetTimeout { s with isRunning := false }, [Ev.ended])

/-- `_getBlockTrackerEventCount`: total listener count over
`blockTrackerEvents`. -/
def trackerEventCount (s : TrackerState) : Nat :=
  s.syncCount + s.latestCount

/-- `_onNewListener` (runs before a listener is added): start when the
event is a block-tracker event. -/
def onNewListener (s : TrackerState) (k : EvKind) : TrackerState × List Ev :=
  if isBlockTrackerEvent k then maybeStart s else (s, [])

/-- `_onRemoveListener` (runs after a listener is removed): stop when no
block-tracker listener remains. -/
def onRemoveListener (s : TrackerState) : TrackerState × List Ev :=
  if trackerEventCount s == 0 then maybeEnd s else (s, [])

/-- Record one more listener for the given event kind. -/
def bumpCount (s : TrackerState) (k : EvKind) : TrackerState :=
  match k with
  | .latest => { s with latestCount := s.latestCount + 1 }
  | .sync => { s with syncCount := s.syncCount + 1 }
  | _ => s

/-- Record one fewer listener for the given event kind. -/
def dropCount (s : TrackerState) (k : EvKind) : TrackerState :=
  match k with
  | .latest => { s with latestCount := s.latestCount - 1 }
  | .sync => { s with syncCount := s.syncCount - 1 }
  | _ => s

/-- Adding a listener: the emitter fires `newListener` (hence
`_onNewListener`) before the listener is added — but only while the
internal hooks are attached. -/
def addListener (s : TrackerState) (k : EvKind) : TrackerState × List Ev :=
  let r := if s.internalHooks then onNewListener s k else (s, [])
  (bumpCount r.1 k, r.2)

/-- Removing a listener: the emitter fires `removeListener` (hence
`_onRemoveListener`) after the listener is removed — but only while the
internal hooks are attached. -/
def removeListener (s : TrackerState) (k : EvKind) : TrackerState × List Ev :=
  let s1 := dropCount s k
  if s1.internalHooks then onRemoveListener s1 else (s1, [])

/-- The armed `setTimeout` elapsing: it fires at most once (firing consumes
it) and runs `_resetCurrentBlock`, clearing the cache. -/
def timerFire (s : TrackerState) : TrackerState :=
  match s.blockResetTimeout with
  | some _ => { s with currentBlock := none, blockResetTimeout := none }
  | none => s

/-- `destroy`: run `_maybeEnd`, cancel the block-reset timeout, then
`super.removeAllListeners()` — which removes every listener, including the
internal `newListener` / `removeListener` hooks. -/
def destroy (s : TrackerState) : TrackerState × List Ev :=
  let r := maybeEnd s
  ({ cancelBlockResetTimeout r.1 with
      latestCount := 0, syncCount := 0, internalHooks := false }, r.2)

/-- Entry of `getLatestBlock`: return the cache when truthy; otherwise
suspend via `this.once('latest', resolve)`, which adds a `latest` listener
(and thereby fires the `newListener` hook first). `none` in the second
component means the caller is suspended. -/
def getLatestBlockEnter (s : TrackerState) : TrackerState × Option String :=
  if jsTruthy s.currentBlock then (s, s.currentBlock)
  else ((addListener s .latest).1, none)

/-- External operations available on a tracker after `destroy`. -/
inductive TrackerOp where
  | add (k : EvKind)
  | remove (k : EvKind)
  | fire
  | getLatest
  deriving DecidableEq

/-- One external operation step. -/
def stepOp (s : TrackerState) : TrackerOp → TrackerState
  | .add k => (addListener s k).1
  | .remove k => (removeListener s k).1
  | .fire => timerFire s
  | .getLatest => (getLatestBlockEnter s).1

/-- Run a sequence of external operations. -/
def runOps (s : TrackerState) : List TrackerOp → TrackerState
  | [] => s
  | op :: ops => runOps (stepOp s op) ops

/-! ## `PollingBlockTracker._synchronize` loop -/

/-- Outcome of one `_fetchLatestBlock` call: the resolved block number, or
a thrown error (a transport failure or an RPC-level `error` response, both
of which `_fetchLatestBlock` surfaces as a thrown `Error`). -/
inductive FetchOutcome where
  | ok (v : String)
  | fail
  deriving DecidableEq

/-- How a failing iteration was reported: `this.emit('error', newErr)` when
an `error` listener exists, otherwise `console.error` (the emitter throws
on an unhandled `error` event and the `catch` logs it). -/
inductive ErrorSink where
  | emitted
  | logged
  deriving DecidableEq

/-- Configuration of the polling loop: `_pollingInterval`, `_retryTimeout`,
and whether an `error` listener is attached during the run. -/
structure PollConfig where
  pollingInterval : Nat
  retryTimeout : Nat
  hasErrorListener : Bool
  deriving DecidableEq

/-- Footprint of the loop on the base tracker: the `_currentBlock` cache
and the callers currently suspended inside `getLatestBlock` waiting on the
`latest` event (identified by caller ids). -/
structure PollState where
  cache : Option String
  waiters : List Nat
  deriving DecidableEq

/-- Observable record of one loop iteration: how long the loop then waits,
how a failure was reported (if one occurred), and the events emitted. -/
structure IterLog where
  wait : Nat
  errorReport : Option ErrorSink
  emitted : List Ev
  deriving DecidableEq

/-- One iteration of the `while (this._isRunning)` body of
`_synchronize`: on success, `_updateLatestBlock` feeds the fetched value to
`_newPotentialLatest`; an emitted `latest` event resolves every suspended
`getLatestBlock` caller with the new value; the loop then waits the polling
interval. On a thrown error, the error is reported (emitted or logged), no
state changes, and the loop waits the retry timeout instead. -/
def syncIter (cfg : PollConfig) (s : PollState) :
    FetchOutcome → PollState × List (Nat × String) × IterLog
  | .ok v =>
    let r := newPotentialLatest s.cache v
    if r.2.isEmpty then
      (⟨r.1, s.waiters⟩, [], ⟨cfg.pollingInterval, none, r.2⟩)
    else
      (⟨r.1, []⟩, s.waiters.map (fun i => (i, v)),
        ⟨cfg.pollingInterval, none, r.2⟩)
  | .fail =>
    (s, [],
      ⟨cfg.retryTimeout,
        some (if cfg.hasErrorListener then .emitted else .logged), []⟩)

/-- The `_synchronize` loop over a script of fetch outcomes (the tracker
stays running throughout): every outcome is processed by one iteration;
resolved waiters and per-iteration logs are concatenated in order. -/
def synchronize (cfg : PollConfig) (s : PollState) :
    List FetchOutcome → PollState × List (Nat × String) × List IterLog
  | [] => (s, [], [])
  | o :: os =>
    let r1 := syncIter cfg s o
    let r2 := synchronize cfg r1.1 os
    (r2.1, r1.2.1 ++ r2.2.1, r1.2.2 :: r2.2.2)

/-- Entry of `getLatestBlock` against the polling footprint: with a truthy
cache the caller returns it at once; otherwise the caller suspends and is
appended to the waiter list. -/
def getLatestBlockPoll (s : PollState) (callerId : Nat) :
    PollState × Option String :=
  if jsTruthy s.cache then (s, s.cache)
  else ({ s with waiters := s.waiters ++ [callerId] }, none)

/-! ## Concurrent `checkForLatestBlock` calls -/

/-- The shared-state-relevant atomic actions of one
`checkForLatestBlock()` call, in program order: `_updateLatestBlock`
performs one provider request (`_fetchLatestBlock`) and then submits the
result (`_newPotentialLatest`); `getLatestBlock` then reads the cache.
The source consults no in-flight-request guard anywhere on this path. -/
inductive CAction where
  | fetch
  | submit
  | readCache
  deriving DecidableEq

/-- Program order of one `checkForLatestBlock()` call. -/
def checkForLatestBlockActions : List CAction := [.fetch, .submit, .readCache]

/-- State shared by concurrent calls: the cache and the number of provider
requests issued so far. -/
structure SharedState where
  cache : Option String
  requests : Nat
  deriving DecidableEq

/-- Effect of one atomic action on the shared state, when the provider
answers every request with `resp`. -/
def execAction (resp : String) (s : SharedState) : CAction → SharedState
  | .fetch => { s with requests := s.requests + 1 }
  | .submit => { s with cache := (newPotentialLatest s.cache resp).1 }
  | .readCache => s

/-- Execute a merged action trace on the shared state. -/
def execTrace (resp : String) (s : SharedState) : List CAction → SharedState
  | [] => s
  | a :: t => execTrace resp (execAction resp s a) t

/-- `Interleaving xs ys zs`: `zs` is an order-preserving merge of the two
concurrent calls' action lists `xs` and `ys`. -/
inductive Interleaving : List CAction → List CAction → List CAction → Prop
  | nil : Interleaving [] [] []
  | left {a xs ys zs} : Interleaving xs ys zs →
      Interleaving (a :: xs) ys (a :: zs)
  | right {a xs ys zs} : Interleaving xs ys zs →
      Interleaving xs (a :: ys) (a :: zs)

/-! ## `SubscribeBlockTracker` -/

/-- Requests a `SubscribeBlockTracker` can issue through `_call`. -/
inductive Req where
  | blockNumber
  | subscribeReq
  | unsubscribeReq (id : String)
  deriving DecidableEq

/-- State of a `SubscribeBlockTracker`: the stored `_subscriptionId`,
whether the `data` push handler has been attached to the provider, and the
base tracker's `_currentBlock` cache. -/
structure SubState where
  subscriptionId : Option String
  handlerAttached : Bool
  cache : Option String
  deriving DecidableEq

/-- `SubscribeBlockTracker._start`: when no subscription id is stored,
fetch the current block number (on a thrown error, emit `error` and leave
the fetched value undefined), issue the subscribe request (on a thrown
error, emit `error` and leave the id unset), attach the `data` handler,
and finally submit the fetched value through `_newPotentialLatest` only
when the fetch succeeded. Returns the new state, the emitted events, and
the provider requests issued. -/
def subStart (s : SubState) (fetchRes : Except String String)
    (subRes : Except String String) : SubState × List Ev × List Req :=
  if s.subscriptionId.isSome then (s, [], [])
  else
    let fr : Option String × List Ev :=
      match fetchRes with
      | .ok v => (some v, [])
      | .error _ => (none, [Ev.error])
    let sr : Option String × List Ev :=
      match subRes with
      | .ok i => (some i, [])
      | .error _ => (none, [Ev.error])
    let s1 : SubState :=
      { s with subscriptionId := sr.1, handlerAttached := true }
    match fr.1 with
    | some v =>
      let r := newPotentialLatest s1.cache v
      ({ s1 with cache := r.1 }, fr.2 ++ sr.2 ++ r.2,
        [Req.blockNumber, Req.subscribeReq])
    | none => (s1, fr.2 ++ sr.2, [Req.blockNumber, Req.subscribeReq])

/-- `SubscribeBlockTracker._end`: when a subscription id is stored, issue
the unsubscribe request; on success clear the id, on a thrown error emit
`error` (the id is assigned `null` only after the `await`, inside the
`try`, so it stays set on failure). The function always returns normally:
the error is not re-raised to the caller. -/
def subEnd (s : SubState) (unsubRes : Except String Bool) :
    SubState × List Ev × List Req :=
  match s.subscriptionId with
  | none => (s, [], [])
  | some i =>
    match unsubRes with
    | .ok _ => ({ s with subscriptionId := none }, [], [Req.unsubscribeReq i])
    | .error _ => (s, [Ev.error], [Req.unsubscribeReq i])

/-! ## Helper lemmas -/

theorem hexToInt_empty : hexToInt "" = none := rfl

theorem ne_empty_of_isSome {v : String} (h : (hexToInt v).isSome) : v ≠ "" := by
  intro heq
  rw [heq, hexToInt_empty] at h
  simp at h

theorem hexToInt_eq_valOf {c : String} (h : (hexToInt c).isSome) :
    hexToInt c = some (valOf c) := by
  cases hc : hexToInt c with
  | none => rw [hc] at h; simp at h
  | some x => simp [valOf, hc]

theorem npl_reject (c v : String) (hc : (hexToInt c).isSome)
    (hle : jsLe (hexToInt v) (hexToInt c) = true) :
    newPotentialLatest (some c) v = (some c, []) := by
  have hne : (c == "") = false := beq_eq_false_iff_ne.mpr (ne_empty_of_isSome hc)
  simp [newPotentialLatest, hne, hle]

theorem npl_accept (c v : String)
    (hgt : jsLe (hexToInt v) (hexToInt c) = false) :
    newPotentialLatest (some c) v = (some v, [Ev.latest v, Ev.sync (some c) v]) := by
  simp [newPotentialLatest, hgt, setCurrentBlock]

theorem latestPayloads_append (l1 l2 : List Ev) :
    latestPayloads (l1 ++ l2) = latestPayloads l1 ++ latestPayloads l2 := by
  induction l1 with
  | nil => simp [latestPayloads]
  | cons e es ih => cases e <;> simp [latestPayloads, ih]

theorem processAll_some_inv (vs : List String) : ∀ c : String,
    (hexToInt c).isSome → allParse vs →
    ∃ w, (processAll (some c) vs).1 = some w ∧
      hexToInt w = some (runMax (valOf c) vs) ∧
      latestPayloads (processAll (some c) vs).2 =
        strictIncs (some (valOf c)) vs := by
  induction vs with
  | nil =>
    intro c hc _
    exact ⟨c, rfl, by rw [hexToInt_eq_valOf hc]; rfl, rfl⟩
  | cons v vs ih =>
    intro c hc hall
    have hv : (hexToInt v).isSome := hall v (List.mem_cons_self v vs)
    have hall2 : allParse vs := fun u hu => hall u (List.mem_cons_of_mem v hu)
    obtain ⟨b, hb⟩ := Option.isSome_iff_exists.mp hc
    obtain ⟨x, hx⟩ := Option.isSome_iff_exists.mp hv
    have hvalc : valOf c = b := by simp [valOf, hb]
    have hvalv : valOf v = x := by simp [valOf, hx]
    by_cases hxb : x ≤ b
    · have hle : jsLe (hexToInt v) (hexToInt c) = true := by
        simp [jsLe, hb, hx, hxb]
      have hstep := npl_reject c v hc hle
      obtain ⟨w, hw1, hw2, hw3⟩ := ih c hc hall2
      refine ⟨w, ?_, ?_, ?_⟩
      · simp [processAll, hstep, hw1]
      · rw [show runMax (valOf c) (v :: vs) =
              runMax (max (valOf c) (valOf v)) vs from rfl]
        rw [hvalc, hvalv, max_eq_left hxb, ← hvalc]
        exact hw2
      · rw [show strictIncs (some (valOf c)) (v :: vs) =
              if valOf v ≤ valOf c then strictIncs (some (valOf c)) vs
              else v :: strictIncs (some (valOf v)) vs from rfl]
        rw [hvalc, hvalv, if_pos hxb, ← hvalc]
        simpa [processAll, hstep, latestPayloads] using hw3
    · have hgt : jsLe (hexToInt v) (hexToInt c) = false := by
        simp [jsLe, hb, hx, hxb]
      have hstep := npl_accept c v hgt
      obtain ⟨w, hw1, hw2, hw3⟩ := ih v hv hall2
      have hmax : max (valOf c) (valOf v) = valOf v := by
        rw [hvalc, hvalv]; exact max_eq_right (le_of_lt (not_le.mp hxb))
      refine ⟨w, ?_, ?_, ?_⟩
      · simp [processAll, hstep, hw1]
      · rw [show runMax (valOf c) (v :: vs) =
              runMax (max (valOf c) (valOf v)) vs from rfl]
        rw [hmax]
        exact hw2
      · rw [show strictIncs (some (valOf c)) (v :: vs) =
              if valOf v ≤ valOf c then strictIncs (some (valOf c)) vs
              else v :: strictIncs (some (valOf v)) vs from rfl]
        rw [hvalc, hvalv, if_neg hxb, ← hvalv]
        simpa [processAll, hstep, latestPayloads] using hw3

theorem processAll_none_inv (vs : List String) (hall : allParse vs) :
    latestPayloads (processAll none vs).2 = strictIncs none vs ∧
    (vs ≠ [] → ∃ w, (processAll none vs).1 = some w ∧
      hexToInt w = numericMax vs) := by
  cases vs with
  | nil => exact ⟨rfl, fun h => absurd rfl h⟩
  | cons v vs =>
    have hv : (hexToInt v).isSome := hall v (List.mem_cons_self v vs)
    have hall2 : allParse vs := fun u hu => hall u (List.mem_cons_of_mem v hu)
    obtain ⟨w, hw1, hw2, hw3⟩ := processAll_some_inv vs v hv hall2
    have hstep : newPotentialLatest none v =
        (some v, [Ev.latest v, Ev.sync none v]) := rfl
    constructor
    · rw [show strictIncs none (v :: vs) =
          v :: strictIncs (some (valOf v)) vs from rfl]
      simpa [processAll, hstep, latestPayloads] using hw3
    · intro _
      refine ⟨w, ?_, ?_⟩
      · simp [processAll, hstep, hw1]
      · rw [show numericMax (v :: vs) = some (runMax (valOf v) vs) from rfl]
        exact hw2

/-! ## Claim theorems -/

/-- C1: in default (non-past-blocks) mode, `_newPotentialLatest` rejects a
candidate whose parsed value is `<=` the cached one (cache unchanged, no
events) and accepts any other candidate (cache set, `latest` with the new
value and `sync` with old and new emitted); consequently, over a sequence of
parseable candidates starting from an empty cache, the final cache is the
numeric maximum of the sequence and `latest` fires exactly once per strict
increase of the running maximum, with the increasing candidate as payload. -/
theorem newPotentialLatest_filter_and_max (vs : List String) (c v : String)
    (hall : allParse vs) (hc : (hexToInt c).isSome) :
    (jsLe (hexToInt v) (hexToInt c) = true →
      newPotentialLatest (some c) v = (some c, [])) ∧
    (jsLe (hexToInt v) (hexToInt c) = false →
      newPotentialLatest (some c) v =
        (some v, [Ev.latest v, Ev.sync (some c) v])) ∧
    latestPayloads (processAll none vs).2 = strictIncs none vs ∧
    (vs ≠ [] → ∃ w, (processAll none vs).1 = some w ∧
      hexToInt w = numericMax vs) :=
  ⟨fun hle => npl_reject c v hc hle, fun hgt => npl_accept c v hgt,
    (processAll_none_inv vs hall).1, (processAll_none_inv vs hall).2⟩

/-- Witness for C1 at the concrete sequence `0x1, 0x3, 0x2, 0x5` with
cached value `0x3` and candidate `0x2`. -/
theorem newPotentialLatest_filter_and_max_witness :
    (allParse ["0x1", "0x3", "0x2", "0x5"] ∧ (hexToInt "0x3").isSome) ∧
    ((jsLe (hexToInt "0x2") (hexToInt "0x3") = true →
      newPotentialLatest (some "0x3") "0x2" = (some "0x3", [])) ∧
    (jsLe (hexToInt "0x2") (hexToInt "0x3") = false →
      newPotentialLatest (some "0x3") "0x2" =
        (some "0x2", [Ev.latest "0x2", Ev.sync (some "0x3") "0x2"])) ∧
    latestPayloads (processAll none ["0x1", "0x3", "0x2", "0x5"]).2 =
      strictIncs none ["0x1", "0x3", "0x2", "0x5"] ∧
    (["0x1", "0x3", "0x2", "0x5"] ≠ [] →
      ∃ w, (processAll none ["0x1", "0x3", "0x2", "0x5"]).1 = some w ∧
        hexToInt w = numericMax ["0x1", "0x3", "0x2", "0x5"])) :=
  ⟨⟨by unfold allParse; decide, by decide⟩,
    newPotentialLatest_filter_and_max ["0x1", "0x3", "0x2", "0x5"] "0x3" "0x2"
      (by unfold allParse; decide) (by decide)⟩

/-- C3: with `usePastBlocks: true`, a candidate numerically smaller than
the cached value overwrites the cache and emits `latest` with it (and
`sync`); with the option false the smaller candidate is discarded with no
cache change and no events. The past-blocks branch is modelled from the
spec (its implementation is not under `src/`). -/
theorem usePastBlocks_smaller_value (c v : String) (b x : Int)
    (hc : hexToInt c = some b) (hv : hexToInt v = some x) (hlt : x < b) :
    newPotentialLatestPB true (some c) v =
      (some v, [Ev.latest v, Ev.sync (some c) v]) ∧
    newPotentialLatestPB false (some c) v = (some c, []) := by
  constructor
  · rfl
  · have hcs : (hexToInt c).isSome := by rw [hc]; rfl
    have hle : jsLe (hexToInt v) (hexToInt c) = true := by
      simp [jsLe, hc, hv, le_of_lt hlt]
    simpa [newPotentialLatestPB] using npl_reject c v hcs hle

/-- Witness for C3 with cache `0x1` and candidate `0x0`. -/
theorem usePastBlocks_smaller_value_witness :
    (hexToInt "0x1" = some 1 ∧ hexToInt "0x0" = some 0 ∧ (0 : Int) < 1) ∧
    (newPotentialLatestPB true (some "0x1") "0x0" =
      (some "0x0", [Ev.latest "0x0", Ev.sync (some "0x1") "0x0"]) ∧
    newPotentialLatestPB false (some "0x1") "0x0" = (some "0x1", [])) :=
  ⟨⟨by decide, by decide, by decide⟩,
    usePastBlocks_smaller_value "0x1" "0x0" 1 0 (by decide) (by decide)
      (by decide)⟩

/-- C5: the chain-reorg transition `_useNewBlock` — a candidate with no
number is ignored; with no cached number or hash the candidate is adopted
silently; a candidate with no hash emits `reset` and clears the cache; a
numerically smaller number, or an equal number with a different hash,
emits `reset` and the candidate is still adopted; a strictly larger number
is adopted with no event. -/
theorem useNewBlock_transitions (cur : Block) (cn ch nn nh : String)
    (b x : Int) (hcn : hexToInt cn = some b) (hnn : hexToInt nn = some x)
    (hch : ch ≠ "") (hnh : nh ≠ "") :
    (useNewBlock cur ⟨none, some nh⟩ = (cur, [])) ∧
    (useNewBlock ⟨none, some ch⟩ ⟨some nn, some nh⟩ =
      (⟨some nn, some nh⟩, [])) ∧
    (useNewBlock ⟨some cn, none⟩ ⟨some nn, some nh⟩ =
      (⟨some nn, some nh⟩, [])) ∧
    (useNewBlock ⟨some cn, some ch⟩ ⟨some nn, none⟩ =
      (emptyBlock, [Ev.reset (some cn) (some ch) (some nn) none])) ∧
    (x < b → useNewBlock ⟨some cn, some ch⟩ ⟨some nn, some nh⟩ =
      (⟨some nn, some nh⟩,
        [Ev.reset (some cn) (some ch) (some nn) (some nh)])) ∧
    (x = b → nh ≠ ch → useNewBlock ⟨some cn, some ch⟩ ⟨some nn, some nh⟩ =
      (⟨some nn, some nh⟩,
        [Ev.reset (some cn) (some ch) (some nn) (some nh)])) ∧
    (b < x → useNewBlock ⟨some cn, some ch⟩ ⟨some nn, some nh⟩ =
      (⟨some nn, some nh⟩, [])) := by
  have hcn0 : (cn == "") = false :=
    beq_eq_false_iff_ne.mpr (ne_empty_of_isSome (by rw [hcn]; rfl))
  have hnn0 : (nn == "") = false :=
    beq_eq_false_iff_ne.mpr (ne_empty_of_isSome (by rw [hnn]; rfl))
  have hch0 : (ch == "") = false := beq_eq_false_iff_ne.mpr hch
  have hnh0 : (nh == "") = false := beq_eq_false_iff_ne.mpr hnh
  refine ⟨?_, ?_, ?_, ?_, ?_, ?_, ?_⟩
  · simp [useNewBlock, jsTruthy]
  · simp [useNewBlock, jsTruthy, hnn0, hnh0]
  · simp [useNewBlock, jsTruthy, hnn0, hnh0, hcn0]
  · simp [useNewBlock, jsTruthy, hnn0, hcn0, hch0]
  · intro hlt
    have hne : (x == b) = false := by simp [Int.ne_of_lt hlt]
    simp [useNewBlock, jsTruthy, hnn0, hnh0, hcn0, hch0, jsLt, jsEqInt,
      hcn, hnn, hlt, hne]
  · intro heq hne
    have hh : (nh == ch) = false := beq_eq_false_iff_ne.mpr hne
    simp [useNewBlock, jsTruthy, hnn0, hnh0, hcn0, hch0, jsLt, jsEqInt,
      hcn, hnn, heq, hh]
  · intro hgt
    have hne : (x == b) = false := by simp [Int.ne_of_gt hgt]
    simp [useNewBlock, jsTruthy, hnn0, hnh0, hcn0, hch0, jsLt, jsEqInt,
      hcn, hnn, not_lt_of_gt hgt, hne]

/-- Witness for C5 at the spec scenario: cached
`(number 0x5, hash 0xaaa)`, candidate `(number 0x5, hash 0xbbb)`. -/
theorem useNewBlock_transitions_witness :
    (hexToInt "0x5" = some 5 ∧ hexToInt "0x5" = some 5 ∧
      ("0xaaa" : String) ≠ "" ∧ ("0xbbb" : String) ≠ "") ∧
    (useNewBlock ⟨some "0x5", some "0xaaa"⟩ ⟨some "0x5", some "0xbbb"⟩ =
      (⟨some "0x5", some "0xbbb"⟩,
        [Ev.reset (some "0x5") (some "0xaaa") (some "0x5")
          (some "0xbbb")])) :=
  ⟨⟨by decide, by decide, by decide, by decide⟩,
    (useNewBlock_transitions ⟨some "0x5", some "0xaaa"⟩ "0x5" "0xaaa" "0x5"
      "0xbbb" 5 5 (by decide) (by decide) (by decide)
      (by decide)).2.2.2.2.2.1 rfl (by decide)⟩

/-! ### Lifecycle helper lemmas -/

theorem addListener_timeout_cases (s : TrackerState) (k : EvKind) :
    (addListener s k).1.blockResetTimeout = none ∨
    (addListener s k).1.blockResetTimeout = s.blockResetTimeout := by
  by_cases hh : s.internalHooks
  · cases k <;>
      simp only [addListener, onNewListener, isBlockTrackerEvent, hh,
        if_true, if_false, maybeStart, bumpCount, cancelBlockResetTimeout] <;>
      by_cases hr : s.isRunning <;> simp [hr, bumpCount]
  · cases k <;> simp [addListener, hh, bumpCount]

theorem timerFire_timeout (s : TrackerState) :
    (timerFire s).blockResetTimeout = none := by
  cases h : s.blockResetTimeout <;> simp [timerFire, h]

theorem dropCount_frame (s : TrackerState) (k : EvKind) :
    (dropCount s k).isRunning = s.isRunning ∧
    (dropCount s k).blockResetTimeout = s.blockResetTimeout := by
  cases k <;> simp [dropCount]

theorem removeListener_arms_only_on_stop (s : TrackerState) (k : EvKind)
    (h1 : s.blockResetTimeout = none)
    (h2 : (removeListener s k).1.blockResetTimeout ≠ none) :
    s.isRunning = true ∧ (removeListener s k).1.isRunning = false := by
  obtain ⟨hd1, hd2⟩ := dropCount_frame s k
  by_cases hh : (dropCount s k).internalHooks
  · simp only [removeListener, hh, if_true] at h2 ⊢
    by_cases hc : trackerEventCount (dropCount s k) == 0
    · simp only [onRemoveListener, hc, if_true] at h2 ⊢
      by_cases hr : (dropCount s k).isRunning
      · refine ⟨by rw [← hd1]; exact hr, ?_⟩
        simp [maybeEnd, hr, setupBlockResetTimeout, cancelBlockResetTimeout]
      · exfalso
        apply h2
        simp only [maybeEnd, hr]
        simpa [hd2] using h1
    · exfalso
      apply h2
      simp only [onRemoveListener, hc, if_false]
      simpa [hd2] using h1
  · exfalso
    apply h2
    simp only [removeListener, hh, if_false]
    simpa [hd2] using h1

/-- C4 counterexample: on an idle tracker (not running, internal hooks
attached) with no cached value, `getLatestBlock` suspends via
`once('latest', ...)`, whose `newListener` hook starts tracking — the
tracker is running afterwards, contradicting the claim that the call never
starts tracking. -/
theorem getLatestBlock_starts_tracking :
    (getLatestBlockEnter ⟨false, none, none, 20000, 0, 0, true⟩).1.isRunning
      = true := by decide

/-- C4 amended: with a cached value `getLatestBlock` returns it immediately
with no side effects; on an idle tracker with no cached value the call
suspends by registering a `latest` listener, and that registration (via the
`newListener` hook) transitions the tracker to running. -/
theorem getLatestBlock_registration (s t : TrackerState) (b : String)
    (h1 : s.isRunning = false) (h2 : s.currentBlock = none)
    (h3 : s.internalHooks = true)
    (h4 : t.currentBlock = some b) (h5 : b ≠ "") :
    (getLatestBlockEnter s).1.isRunning = true ∧
    (getLatestBlockEnter s).2 = none ∧
    (getLatestBlockEnter s).1.latestCount = s.latestCount + 1 ∧
    (getLatestBlockEnter s).1.currentBlock = s.currentBlock ∧
    getLatestBlockEnter t = (t, some b) := by
  have hb : (b == "") = false := beq_eq_false_iff_ne.mpr h5
  refine ⟨?_, ?_, ?_, ?_, ?_⟩ <;>
    simp [getLatestBlockEnter, jsTruthy, h1, h2, h3, h4, hb, addListener,
      onNewListener, isBlockTrackerEvent, maybeStart, bumpCount,
      cancelBlockResetTimeout]

/-- Witness for the amended C4 at concrete idle and cached states. -/
theorem getLatestBlock_registration_witness :
    ((false = false ∧ (none : Option String) = none ∧ true = true) ∧
      (some "0x1" : Option String) = some "0x1" ∧ ("0x1" : String) ≠ "") ∧
    ((getLatestBlockEnter ⟨false, none, none, 20000, 0, 0, true⟩).1.isRunning
        = true ∧
      (getLatestBlockEnter ⟨false, none, none, 20000, 0, 0, true⟩).2 = none ∧
      (getLatestBlockEnter
          ⟨false, none, none, 20000, 0, 0, true⟩).1.latestCount = 0 + 1 ∧
      (getLatestBlockEnter
          ⟨false, none, none, 20000, 0, 0, true⟩).1.currentBlock = none ∧
      getLatestBlockEnter ⟨false, some "0x1", none, 20000, 0, 0, true⟩ =
        (⟨false, some "0x1", none, 20000, 0, 0, true⟩, some "0x1")) :=
  ⟨⟨⟨rfl, rfl, rfl⟩, rfl, by decide⟩,
    getLatestBlock_registration ⟨false, none, none, 20000, 0, 0, true⟩
      ⟨false, some "0x1", none, 20000, 0, 0, true⟩ "0x1" rfl rfl rfl rfl
      (by decide)⟩

/-- C6: registering an interest on an idle tracker starts it and cancels
the expiry timer; unregistering the sole interest stops it and arms the
timer (with the configured duration, detached from the event loop); the
timer fires once, clearing the cached block; re-entering running cancels
the timer; and the timer is only ever armed by the stop transition —
adding listeners never arms it, firing consumes it, and `removeListener`
arms it only when it actually performs the running-to-idle transition. -/
theorem interest_roundtrip_expiry (s0 : TrackerState)
    (hr : s0.isRunning = false) (hl : s0.latestCount = 0)
    (hs : s0.syncCount = 0) (hh : s0.internalHooks = true) :
    ((addListener s0 .latest).1.isRunning = true) ∧
    ((addListener s0 .latest).1.blockResetTimeout = none) ∧
    ((removeListener (addListener s0 .latest).1 .latest).1.isRunning
      = false) ∧
    ((removeListener (addListener s0 .latest).1 .latest).1.blockResetTimeout
      = some ⟨s0.blockResetDuration, true⟩) ∧
    ((timerFire
        (removeListener (addListener s0 .latest).1 .latest).1).currentBlock
      = none) ∧
    (timerFire
        (timerFire (removeListener (addListener s0 .latest).1 .latest).1)
      = timerFire (removeListener (addListener s0 .latest).1 .latest).1) ∧
    ((addListener
        (removeListener (addListener s0 .latest).1 .latest).1
        .latest).1.blockResetTimeout = none) ∧
    (∀ s k, (addListener s k).1.blockResetTimeout = none ∨
      (addListener s k).1.blockResetTimeout = s.blockResetTimeout) ∧
    (∀ s, (timerFire s).blockResetTimeout = none) ∧
    (∀ s k, s.blockResetTimeout = none →
      (removeListener s k).1.blockResetTimeout ≠ none →
      s.isRunning = true ∧ (removeListener s k).1.isRunning = false) := by
  have h1 : addListener s0 .latest =
      (⟨true, s0.currentBlock, none, s0.blockResetDuration, 1, 0, true⟩,
        [Ev.started]) := by
    simp [addListener, onNewListener, isBlockTrackerEvent, hh, maybeStart,
      hr, hl, hs, bumpCount, cancelBlockResetTimeout]
  have h2 : removeListener (addListener s0 .latest).1 .latest =
      (⟨false, s0.currentBlock, some ⟨s0.blockResetDuration, true⟩,
          s0.blockResetDuration, 0, 0, true⟩, [Ev.ended]) := by
    rw [h1]
    simp [removeListener, dropCount, onRemoveListener,
      trackerEventCount, maybeEnd, setupBlockResetTimeout,
      cancelBlockResetTimeout]
  refine ⟨by rw [h1], by rw [h1], by rw [h2], by rw [h2], by rw [h2]; rfl,
    by rw [h2]; rfl, ?_, addListener_timeout_cases, timerFire_timeout,
    removeListener_arms_only_on_stop⟩
  rw [h2]
  simp [addListener, onNewListener, isBlockTrackerEvent, hh, maybeStart,
    bumpCount, cancelBlockResetTimeout]

/-- Witness for C6 at a concrete idle state holding a cached block. -/
theorem interest_roundtrip_expiry_witness :
    (false = false ∧ (0 : Nat) = 0 ∧ (0 : Nat) = 0 ∧ true = true) ∧
    ((addListener ⟨false, some "0x1", none, 20000, 0, 0, true⟩
        .latest).1.isRunning = true ∧
      (addListener ⟨false, some "0x1", none, 20000, 0, 0, true⟩
        .latest).1.blockResetTimeout = none ∧
      (removeListener (addListener
          ⟨false, some "0x1", none, 20000, 0, 0, true⟩ .latest).1
          .latest).1.isRunning = false ∧
      (removeListener (addListener
          ⟨false, some "0x1", none, 20000, 0, 0, true⟩ .latest).1
          .latest).1.blockResetTimeout = some ⟨20000, true⟩ ∧
      (timerFire (removeListener (addListener
          ⟨false, some "0x1", none, 20000, 0, 0, true⟩ .latest).1
          .latest).1).currentBlock = none ∧
      (timerFire (timerFire (removeListener (addListener
          ⟨false, some "0x1", none, 20000, 0, 0, true⟩ .latest).1
          .latest).1) = timerFire (removeListener (addListener
          ⟨false, some "0x1", none, 20000, 0, 0, true⟩ .latest).1
          .latest).1) ∧
      (addListener (removeListener (addListener
          ⟨false, some "0x1", none, 20000, 0, 0, true⟩ .latest).1
          .latest).1 .latest).1.blockResetTimeout = none ∧
      (∀ s k, (addListener s k).1.blockResetTimeout = none ∨
        (addListener s k).1.blockResetTimeout = s.blockResetTimeout) ∧
      (∀ s, (timerFire s).blockResetTimeout = none) ∧
      (∀ s k, s.blockResetTimeout = none →
        (removeListener s k).1.blockResetTimeout ≠ none →
        s.isRunning = true ∧ (removeListener s k).1.isRunning = false)) :=
  ⟨⟨rfl, rfl, rfl, rfl⟩,
    interest_roundtrip_expiry ⟨false, some "0x1", none, 20000, 0, 0, true⟩
      rfl rfl rfl rfl⟩

/-! ### Post-destroy preservation -/

theorem stepOp_preserve (s : TrackerState) (op : TrackerOp)
    (h1 : s.internalHooks = false) (h2 : s.blockResetTimeout = none) :
    (stepOp s op).currentBlock = s.currentBlock ∧
    (stepOp s op).internalHooks = false ∧
    (stepOp s op).blockResetTimeout = none := by
  cases op with
  | add k => cases k <;> simp [stepOp, addListener, h1, bumpCount, h2]
  | remove k => cases k <;> simp [stepOp, removeListener, dropCount, h1, h2]
  | fire => simp [stepOp, timerFire, h1, h2]
  | getLatest =>
    by_cases hc : jsTruthy s.currentBlock
    · simp [stepOp, getLatestBlockEnter, hc, h1, h2]
    · simp [stepOp, getLatestBlockEnter, hc, addListener, h1, bumpCount, h2]

theorem runOps_preserve (ops : List TrackerOp) : ∀ s : TrackerState,
    s.internalHooks = false → s.blockResetTimeout = none →
    (runOps s ops).currentBlock = s.currentBlock ∧
    (runOps s ops).internalHooks = false ∧
    (runOps s ops).blockResetTimeout = none := by
  induction ops with
  | nil => intro s h1 h2; exact ⟨rfl, h1, h2⟩
  | cons op ops ih =>
    intro s h1 h2
    obtain ⟨a1, a2, a3⟩ := stepOp_preserve s op h1 h2
    obtain ⟨b1, b2, b3⟩ := ih (stepOp s op) a2 a3
    exact ⟨by rw [show runOps s (op :: ops) = runOps (stepOp s op) ops
      from rfl, b1, a1], b2, b3⟩

/-- C10: `destroy` leaves the cached block unchanged, cancels the
block-reset timeout, and removes the internal hooks; every later sequence
of external operations (listener changes, timer expiry, `getLatestBlock`)
leaves `getCurrentBlock` returning the value cached at destruction. -/
theorem destroy_preserves_cache (s : TrackerState) (ops : List TrackerOp) :
    (destroy s).1.currentBlock = s.currentBlock ∧
    (destroy s).1.blockResetTimeout = none ∧
    (destroy s).1.internalHooks = false ∧
    (runOps (destroy s).1 ops).currentBlock = s.currentBlock := by
  have hd : (destroy s).1.currentBlock = s.currentBlock ∧
      (destroy s).1.blockResetTimeout = none ∧
      (destroy s).1.internalHooks = false := by
    by_cases hr : s.isRunning <;>
      simp [destroy, maybeEnd, hr, setupBlockResetTimeout,
        cancelBlockResetTimeout]
  obtain ⟨d1, d2, d3⟩ := hd
  obtain ⟨p1, _, _⟩ := runOps_preserve ops (destroy s).1 d3 d2
  exact ⟨d1, d2, d3, by rw [p1, d1]⟩

/-! ### Polling-loop helper lemmas -/

theorem synchronize_length (cfg : PollConfig) :
    ∀ (os : List FetchOutcome) (s : PollState),
    (synchronize cfg s os).2.2.length = os.length := by
  intro os
  induction os with
  | nil => intro s; rfl
  | cons o os ih => intro s; simp [synchronize, ih]

theorem synchronize_fail_absorb (cfg : PollConfig) (n : Nat) :
    ∀ (os : List FetchOutcome) (s : PollState),
    (synchronize cfg s (List.replicate n .fail ++ os)).1 =
      (synchronize cfg s os).1 ∧
    (synchronize cfg s (List.replicate n .fail ++ os)).2.1 =
      (synchronize cfg s os).2.1 := by
  induction n with
  | zero => intro os s; simp
  | succ n ih =>
    intro os s
    have hrw : List.replicate (n + 1) FetchOutcome.fail ++ os =
        .fail :: (List.replicate n .fail ++ os) := by
      simp [List.replicate_succ]
    rw [hrw]
    refine ⟨?_, ?_⟩
    · show (synchronize cfg s (.fail :: _)).1 = _
      simp [synchronize, syncIter, (ih os s).1]
    · show (synchronize cfg s (.fail :: _)).2.1 = _
      simp [synchronize, syncIter, (ih os s).2]

/-- C7: a failed fetch never terminates the polling loop — every scripted
outcome is processed by exactly one iteration; a failing iteration reports
the error (emitted on the `error` signal when a listener exists, logged
otherwise), waits the retry timeout instead of the polling interval, and
leaves the state untouched; any run of failures leaves the final state and
the resolved callers exactly as if the failures had not happened; and a
subsequent successful fetch still updates the cache and resolves the
suspended `getLatestBlock` callers. -/
theorem polling_error_isolation (cfg : PollConfig) (s : PollState)
    (os : List FetchOutcome) (n : Nat) (v : String) (w1 w2 : Nat) :
    ((synchronize cfg s os).2.2.length = os.length) ∧
    (syncIter cfg s .fail = (s, [],
      ⟨cfg.retryTimeout,
        some (if cfg.hasErrorListener then .emitted else .logged), []⟩)) ∧
    ((synchronize cfg s (List.replicate n .fail ++ os)).1 =
      (synchronize cfg s os).1) ∧
    ((synchronize cfg s (List.replicate n .fail ++ os)).2.1 =
      (synchronize cfg s os).2.1) ∧
    (synchronize cfg ⟨none, [w1, w2]⟩ [.fail, .ok v] =
      (⟨some v, []⟩, [(w1, v), (w2, v)],
        [⟨cfg.retryTimeout,
            some (if cfg.hasErrorListener then .emitted else .logged), []⟩,
          ⟨cfg.pollingInterval, none,
            [Ev.latest v, Ev.sync none v]⟩])) := by
  refine ⟨synchronize_length cfg os s, rfl,
    (synchronize_fail_absorb cfg n os s).1,
    (synchronize_fail_absorb cfg n os s).2, ?_⟩
  simp [synchronize, syncIter, newPotentialLatest, setCurrentBlock]

/-! ### Concurrency helper lemmas -/

/-- Number of provider requests in an action trace. -/
def countFetch : List CAction → Nat
  | [] => 0
  | .fetch :: t => countFetch t + 1
  | _ :: t => countFetch t

theorem execTrace_requests (resp : String) : ∀ (t : List CAction)
    (s : SharedState),
    (execTrace resp s t).requests = s.requests + countFetch t := by
  intro t
  induction t with
  | nil => intro s; rfl
  | cons a tl ih =>
    intro s
    cases a <;> simp [execTrace, execAction, countFetch, ih] <;> omega

theorem interleaving_countFetch {xs ys zs : List CAction}
    (h : Interleaving xs ys zs) :
    countFetch zs = countFetch xs + countFetch ys := by
  induction h with
  | nil => rfl
  | left h ih =>
    rename_i a _ _ _
    cases a <;> simp [countFetch, ih] <;> omega
  | right h ih =>
    rename_i a _ _ _
    cases a <;> simp [countFetch, ih] <;> omega

/-- C2 counterexample: the `checkForLatestBlock` path has no in-flight
request guard — in the overlapped interleaving of two concurrent calls
(both fetches issued before either completes) the provider receives two
requests, not one. -/
theorem concurrent_check_two_requests :
    Interleaving checkForLatestBlockActions checkForLatestBlockActions
      [.fetch, .fetch, .submit, .submit, .readCache, .readCache] ∧
    (execTrace "0x5" ⟨none, 0⟩
      [.fetch, .fetch, .submit, .submit, .readCache, .readCache]).requests
      = 2 :=
  ⟨.left (.right (.left (.right (.left (.right .nil))))), by decide⟩

/-- C2 amended: two concurrent `getLatestBlock` callers with no cached
value both suspend as waiters; the single fetch of the next successful
polling iteration resolves both with the same value; a failing fetch
leaves both still suspended (they do not observe the error); and
concurrent `checkForLatestBlock` calls are not de-duplicated — every
interleaving of two concurrent calls issues two provider requests. -/
theorem concurrent_getLatestBlock_shared (cfg : PollConfig) (v : String)
    (c1 c2 : Nat) (resp : String) (s0 : SharedState) (t : List CAction)
    (h : Interleaving checkForLatestBlockActions checkForLatestBlockActions
      t) :
    (getLatestBlockPoll ⟨none, []⟩ c1 = (⟨none, [c1]⟩, none)) ∧
    (getLatestBlockPoll ⟨none, [c1]⟩ c2 = (⟨none, [c1, c2]⟩, none)) ∧
    (synchronize cfg ⟨none, [c1, c2]⟩ [.ok v] =
      (⟨some v, []⟩, [(c1, v), (c2, v)],
        [⟨cfg.pollingInterval, none, [Ev.latest v, Ev.sync none v]⟩])) ∧
    ((synchronize cfg ⟨none, [c1, c2]⟩ [.fail]).1 = ⟨none, [c1, c2]⟩) ∧
    ((execTrace resp s0 t).requests = s0.requests + 2) := by
  refine ⟨rfl, rfl, ?_, rfl, ?_⟩
  · simp [synchronize, syncIter, newPotentialLatest, setCurrentBlock]
  · rw [execTrace_requests, interleaving_countFetch h]
    rfl

/-- Witness for the amended C2 at a concrete configuration, value, caller
ids, and the sequential interleaving of the two calls. -/
theorem concurrent_getLatestBlock_shared_witness :
    Interleaving checkForLatestBlockActions checkForLatestBlockActions
      (checkForLatestBlockActions ++ checkForLatestBlockActions) ∧
    ((getLatestBlockPoll ⟨none, []⟩ 0 = (⟨none, [0]⟩, none)) ∧
    (getLatestBlockPoll ⟨none, [0]⟩ 1 = (⟨none, [0, 1]⟩, none)) ∧
    (synchronize ⟨20000, 2000, false⟩ ⟨none, [0, 1]⟩ [.ok "0x5"] =
      (⟨some "0x5", []⟩, [(0, "0x5"), (1, "0x5")],
        [⟨20000, none, [Ev.latest "0x5", Ev.sync none "0x5"]⟩])) ∧
    ((synchronize ⟨20000, 2000, false⟩ ⟨none, [0, 1]⟩ [.fail]).1 =
      ⟨none, [0, 1]⟩) ∧
    ((execTrace "0x5" ⟨none, 0⟩
        (checkForLatestBlockActions ++ checkForLatestBlockActions)).requests
      = 0 + 2)) :=
  ⟨.left (.left (.left (.right (.right (.right .nil))))),
    concurrent_getLatestBlock_shared ⟨20000, 2000, false⟩ "0x5" 0 1 "0x5"
      ⟨none, 0⟩ (checkForLatestBlockActions ++ checkForLatestBlockActions)
      (.left (.left (.left (.right (.right (.right .nil))))))⟩

/-- C8: on the start hook with no active subscription, a failed initial
fetch is reported on the `error` signal but does not abort the start — the
subscribe request is still issued, the push handler is still attached, no
`latest` event is emitted for the failed fetch and the cache is unchanged;
a successful initial fetch is submitted through `_newPotentialLatest`. -/
theorem subscribe_start_best_effort (s : SubState) (e : String)
    (subRes : Except String String) (v : String)
    (h : s.subscriptionId = none) :
    ((subStart s (.error e) subRes).2.2 =
      [Req.blockNumber, Req.subscribeReq]) ∧
    ((subStart s (.error e) subRes).1.handlerAttached = true) ∧
    (Ev.error ∈ (subStart s (.error e) subRes).2.1) ∧
    (∀ w, Ev.latest w ∉ (subStart s (.error e) subRes).2.1) ∧
    ((subStart s (.error e) subRes).1.cache = s.cache) ∧
    ((subStart s (.ok v) subRes).1.cache =
      (newPotentialLatest s.cache v).1) := by
  have hns : s.subscriptionId.isSome = false := by simp [h]
  cases subRes with
  | ok i =>
    refine ⟨?_, ?_, ?_, ?_, ?_, ?_⟩ <;> simp [subStart, hns]
  | error e2 =>
    refine ⟨?_, ?_, ?_, ?_, ?_, ?_⟩ <;> simp [subStart, hns]

/-- Witness for C8: no stored subscription, failing fetch `boom`,
successful subscribe answering `0x64`, and a successful fetch of `0x0`. -/
theorem subscribe_start_best_effort_witness :
    ((⟨none, false, none⟩ : SubState).subscriptionId = none) ∧
    (((subStart ⟨none, false, none⟩ (.error "boom") (.ok "0x64")).2.2 =
      [Req.blockNumber, Req.subscribeReq]) ∧
    ((subStart ⟨none, false, none⟩ (.error "boom")
      (.ok "0x64")).1.handlerAttached = true) ∧
    (Ev.error ∈ (subStart ⟨none, false, none⟩ (.error "boom")
      (.ok "0x64")).2.1) ∧
    (∀ w, Ev.latest w ∉ (subStart ⟨none, false, none⟩ (.error "boom")
      (.ok "0x64")).2.1) ∧
    ((subStart ⟨none, false, none⟩ (.error "boom") (.ok "0x64")).1.cache =
      (⟨none, false, none⟩ : SubState).cache) ∧
    ((subStart ⟨none, false, none⟩ (.ok "0x0") (.ok "0x64")).1.cache =
      (newPotentialLatest (⟨none, false, none⟩ : SubState).cache
        "0x0").1)) :=
  ⟨rfl, subscribe_start_best_effort ⟨none, false, none⟩ "boom" (.ok "0x64")
    "0x0" rfl⟩

/-- C9 counterexample: with subscription id `0x64` stored, a failing
unsubscribe call leaves the stored identifier set — it is not cleared
"regardless of the failure" as the claim states (the source assigns
`null` only after the `await` succeeds, inside the `try`). -/
theorem subscribe_end_keeps_id_on_failure :
    (subEnd ⟨some "0x64", true, none⟩ (.error "boom")).1.subscriptionId =
      some "0x64" := rfl

/-- C9 amended: on the end hook with an active subscription, the
unsubscribe request is issued; on success the identifier is cleared and no
error is emitted; on failure the error is reported on the `error` signal
and not re-raised (the hook still returns normally), but the identifier
remains set — it is cleared only when unsubscribing succeeds. -/
theorem subscribe_end_clears_only_on_success (s : SubState) (i e : String)
    (b : Bool) (h : s.subscriptionId = some i) :
    ((subEnd s (.ok b)).2.2 = [Req.unsubscribeReq i]) ∧
    ((subEnd s (.ok b)).1.subscriptionId = none) ∧
    ((subEnd s (.ok b)).2.1 = []) ∧
    ((subEnd s (.error e)).2.2 = [Req.unsubscribeReq i]) ∧
    ((subEnd s (.error e)).2.1 = [Ev.error]) ∧
    ((subEnd s (.error e)).1.subscriptionId = some i) := by
  refine ⟨?_, ?_, ?_, ?_, ?_, ?_⟩ <;> simp [subEnd, h]

/-- Witness for the amended C9 with stored id `0x64`. -/
theorem subscribe_end_clears_only_on_success_witness :
    ((⟨some "0x64", true, none⟩ : SubState).subscriptionId = some "0x64") ∧
    (((subEnd ⟨some "0x64", true, none⟩ (.ok true)).2.2 =
      [Req.unsubscribeReq "0x64"]) ∧
    ((subEnd ⟨some "0x64", true, none⟩ (.ok true)).1.subscriptionId =
      none) ∧
    ((subEnd ⟨some "0x64", true, none⟩ (.ok true)).2.1 = []) ∧
    ((subEnd ⟨some "0x64", true, none⟩ (.error "boom")).2.2 =
      [Req.unsubscribeReq "0x64"]) ∧
    ((subEnd ⟨some "0x64", true, none⟩ (.error "boom")).2.1 =
      [Ev.error]) ∧
    ((subEnd ⟨some "0x64", true, none⟩
      (.error "boom")).1.subscriptionId = some "0x64")) :=
  ⟨rfl, subscribe_end_clears_only_on_success ⟨some "0x64", true, none⟩
    "0x64" "boom" true rfl⟩

end EthBlockTracker
